import Mathlib

/-!
Verification development for the gdeltPyR repository.

The definitions below are a shallow embedding of the code in
`src/gdelt/inputChecks.py`, `src/gdelt/vectorizingFuncs.py` and
`src/gdelt/base.py` (the `gdelt.Search` method).  Python datetimes are
modelled by a calendar `Date` (year, month, day) plus a minute-of-day,
compared through a rata-die day number; `dateutil.parser.parse` and
`datetime.strptime` are modelled by executable parsers over the string
shapes that actually flow through this pipeline (ISO dates, the canonical
`str(datetime)` form, and the digit-only bucket strings).  Raising
`ValueError` is modelled by `Except GErr`.
-/

namespace GdeltPyR

/-! ## Calendar model -/

/-- A calendar date, as carried by a Python `datetime.date`. -/
structure Date where
  year : Nat
  month : Nat
  day : Nat
deriving DecidableEq, Repr

/-- A Python `datetime.datetime`, at minute granularity: every datetime built
by this pipeline has zero seconds and microseconds. -/
structure DateTime where
  date : Date
  minute : Nat
deriving DecidableEq, Repr

/-- Gregorian leap-year rule, as implemented by Python `datetime`. -/
def isLeap (y : Nat) : Bool :=
  (y % 4 == 0 && y % 100 != 0) || (y % 400 == 0)

/-- Number of days in month `m` of a (leap or common) year. -/
def monthLen (leap : Bool) (m : Nat) : Nat :=
  match m with
  | 1 => 31
  | 2 => if leap then 29 else 28
  | 3 => 31
  | 4 => 30
  | 5 => 31
  | 6 => 30
  | 7 => 31
  | 8 => 31
  | 9 => 30
  | 10 => 31
  | 11 => 30
  | _ => 31

/-- Days of the year strictly before month `m`. -/
def daysBeforeMonth (leap : Bool) : Nat → Nat
  | 0 => 0
  | 1 => 0
  | m + 2 => daysBeforeMonth leap (m + 1) + monthLen leap (m + 1)

/-- Rata-die day number of a date (day 1 = 0001-01-01), the usual proleptic
Gregorian formula; Python `date` comparison agrees with comparison of this
number on valid dates. -/
def Date.rd (d : Date) : Nat :=
  365 * (d.year - 1) + (d.year - 1) / 4 - (d.year - 1) / 100 + (d.year - 1) / 400
    + daysBeforeMonth (isLeap d.year) d.month + d.day

/-- A structurally valid calendar date (month and day in range).  Python
additionally bounds the year by 9999; that bound is enforced by the parsers
below, not here, so that day arithmetic stays total. -/
def Date.isOk (d : Date) : Bool :=
  1 ≤ d.year && 1 ≤ d.month && d.month ≤ 12
    && 1 ≤ d.day && d.day ≤ monthLen (isLeap d.year) d.month

/-- Strict `<` on dates (Python `date.__lt__`), via the rata-die key. -/
def dateLtB (a b : Date) : Bool := a.rd < b.rd

/-- Strict `<` on datetimes (Python `datetime.__lt__`): lexicographic on
(day, minute-of-day). -/
def dtLtB (a b : DateTime) : Bool :=
  a.date.rd < b.date.rd || (a.date.rd == b.date.rd && a.minute < b.minute)

/-- The calendar day after `d`. -/
def nextDay (d : Date) : Date :=
  if d.day < monthLen (isLeap d.year) d.month then ⟨d.year, d.month, d.day + 1⟩
  else if d.month < 12 then ⟨d.year, d.month + 1, 1⟩
  else ⟨d.year + 1, 1, 1⟩

/-- `d` plus `n` calendar days. -/
def addDays (d : Date) : Nat → Date
  | 0 => d
  | n + 1 => nextDay (addDays d n)

/-! ## Calendar lemmas -/

theorem daysBeforeMonth_succ :
    ∀ (b : Bool), ∀ m, 1 ≤ m → m < 12 →
      daysBeforeMonth b (m + 1) = daysBeforeMonth b m + monthLen b m := by
  decide

theorem monthLen_pos : ∀ (b : Bool), ∀ m, 1 ≤ monthLen b m := by
  intro b m
  unfold monthLen
  split <;> first | omega | (split <;> omega)

theorem isLeap_iff (y : Nat) :
    isLeap y = true ↔ ((y % 4 = 0 ∧ ¬ y % 100 = 0) ∨ y % 400 = 0) := by
  simp [isLeap]

set_option maxHeartbeats 1600000 in
theorem rd_year_roll (y : Nat) (hy : 1 ≤ y) :
    365 * y + y / 4 - y / 100 + y / 400 + 1
      = 365 * (y - 1) + (y - 1) / 4 - (y - 1) / 100 + (y - 1) / 400
        + daysBeforeMonth (isLeap y) 12 + 31 + 1 := by
  have h1 : daysBeforeMonth true 12 = 335 := by decide
  have h2 : daysBeforeMonth false 12 = 334 := by decide
  cases hL : isLeap y with
  | true =>
    rw [h1]
    have hp := (isLeap_iff y).mp hL
    omega
  | false =>
    rw [h2]
    have hnp : ¬ ((y % 4 = 0 ∧ ¬ y % 100 = 0) ∨ y % 400 = 0) := by
      intro hp
      have hc := (isLeap_iff y).mpr hp
      rw [hc] at hL
      exact Bool.noConfusion hL
    omega

theorem rd_nextDay (d : Date) (h : d.isOk = true) :
    (nextDay d).isOk = true ∧ (nextDay d).rd = d.rd + 1 := by
  unfold Date.isOk at h
  simp only [Bool.and_eq_true, decide_eq_true_eq] at h
  obtain ⟨⟨⟨⟨hy1, hm1⟩, hm12⟩, hd1⟩, hdle⟩ := h
  unfold nextDay
  by_cases hlt : d.day < monthLen (isLeap d.year) d.month
  · simp only [hlt, if_true]
    constructor
    · unfold Date.isOk
      simp only [Bool.and_eq_true, decide_eq_true_eq]
      omega
    · simp only [Date.rd]
      omega
  · have hde : d.day = monthLen (isLeap d.year) d.month := by omega
    by_cases hm : d.month < 12
    · simp only [hlt, if_false, hm, if_true]
      constructor
      · unfold Date.isOk
        simp only [Bool.and_eq_true, decide_eq_true_eq]
        have := monthLen_pos (isLeap d.year) (d.month + 1)
        omega
      · simp only [Date.rd]
        have hsucc := daysBeforeMonth_succ (isLeap d.year) d.month hm1 hm
        omega
    · have hm' : d.month = 12 := by omega
      have hml : monthLen (isLeap d.year) 12 = 31 := rfl
      have hd31 : d.day = 31 := by rw [hm', hml] at hde; exact hde
      simp only [hlt, if_false, hm, if_false]
      constructor
      · unfold Date.isOk
        have h31 : monthLen (isLeap (d.year + 1)) 1 = 31 := rfl
        simp only [Bool.and_eq_true, decide_eq_true_eq, h31]
        omega
      · simp only [Date.rd, hm', hd31]
        have hz : ∀ (b : Bool), daysBeforeMonth b 1 = 0 := by decide
        rw [hz]
        have hroll := rd_year_roll d.year hy1
        omega

theorem addDays_rd (a : Date) (ha : a.isOk = true) :
    ∀ n, (addDays a n).isOk = true ∧ (addDays a n).rd = a.rd + n := by
  intro n
  induction n with
  | zero => exact ⟨ha, rfl⟩
  | succ k ih =>
    obtain ⟨hok, hrd⟩ := ih
    have hnext := rd_nextDay (addDays a k) hok
    exact ⟨hnext.1, by unfold addDays; omega⟩

/-- All calendar days from `a` to `b` inclusive.  (When `b` is before `a`
the truncated subtraction degenerates to the single day `a`; the pipeline
only reaches this with `a` strictly before `b`.) -/
def rangeDays (a b : Date) : List Date :=
  (List.range (b.rd - a.rd + 1)).map (addDays a)

theorem rangeDays_length (a b : Date) :
    (rangeDays a b).length = b.rd - a.rd + 1 := by
  simp [rangeDays]

theorem rangeDays_map_rd (a b : Date) (ha : a.isOk = true) :
    (rangeDays a b).map Date.rd = List.range' a.rd (b.rd - a.rd + 1) := by
  unfold rangeDays
  rw [List.map_map, List.range'_eq_map_range]
  apply List.map_congr_left
  intro i _
  simp only [Function.comp_apply]
  exact (addDays_rd a ha i).2

theorem rangeDays_isOk (a b : Date) (ha : a.isOk = true) :
    ∀ x ∈ rangeDays a b, x.isOk = true := by
  intro x hx
  unfold rangeDays at hx
  obtain ⟨i, _, hi⟩ := List.mem_map.mp hx
  rw [← hi]
  exact (addDays_rd a ha i).1

/-! ## String parsing model -/

/-- Zero-padded two-digit rendering. -/
def pad2 (n : Nat) : String := if n < 10 then "0" ++ toString n else toString n

/-- Zero-padded four-digit rendering. -/
def pad4 (n : Nat) : String :=
  if n < 10 then "000" ++ toString n
  else if n < 100 then "00" ++ toString n
  else if n < 1000 then "0" ++ toString n
  else toString n

/-- Python `str(datetime)`: the canonical `YYYY-MM-DD HH:MM:SS` rendering.
Every datetime built by this pipeline has zero seconds, hence the fixed
`:00` tail. -/
def canonicalStr (t : DateTime) : String :=
  pad4 t.date.year ++ "-" ++ pad2 t.date.month ++ "-" ++ pad2 t.date.day
    ++ " " ++ pad2 (t.minute / 60) ++ ":" ++ pad2 (t.minute % 60) ++ ":00"

/-- Two decimal digits to a number. -/
def num2 (a b : Char) : Option Nat :=
  if a.isDigit && b.isDigit then some ((a.toNat - 48) * 10 + (b.toNat - 48))
  else none

/-- Four decimal digits to a number. -/
def num4 (a b c d : Char) : Option Nat :=
  match num2 a b, num2 c d with
  | some hi, some lo => some (hi * 100 + lo)
  | _, _ => none

/-- Python `datetime(y, m, d, ...)` construction: rejects out-of-range
fields (year 1..9999, month 1..12, day within the month). -/
def mkDT (y m d minute : Nat) : Option DateTime :=
  if 1 ≤ y && y ≤ 9999 && 1 ≤ m && m ≤ 12 && 1 ≤ d
      && d ≤ monthLen (isLeap y) m
  then some ⟨⟨y, m, d⟩, minute⟩ else none

/-- Model of `dateutil.parser.parse` restricted to the string shapes this
pipeline feeds it: ISO `YYYY-MM-DD` dates and the canonical
`YYYY-MM-DD HH:MM:SS` form produced by `str(datetime)` (whose seconds are
always zero here, so they are validated and dropped).  Any other shape is a
parse failure, which in the source surfaces as a raised `ValueError`. -/
def parseDate (s : String) : Option DateTime :=
  match s.toList with
  | [y1, y2, y3, y4, '-', m1, m2, '-', d1, d2] =>
    match num4 y1 y2 y3 y4, num2 m1 m2, num2 d1 d2 with
    | some y, some m, some d => mkDT y m d 0
    | _, _, _ => none
  | [y1, y2, y3, y4, '-', m1, m2, '-', d1, d2, ' ',
     h1, h2, ':', n1, n2, ':', s1, s2] =>
    match num4 y1 y2 y3 y4, num2 m1 m2, num2 d1 d2,
        num2 h1 h2, num2 n1 n2, num2 s1 s2 with
    | some y, some m, some d, some hh, some nn, some ss =>
      if hh < 24 && nn < 60 && ss < 60 then mkDT y m d (hh * 60 + nn)
      else none
    | _, _, _, _, _, _ => none
  | _ => none

/-- `datetime.strptime(s, "%Y")`: exactly four digits, expanded to January
1 of that year (inputChecks.py line 56). -/
def strptimeY (s : String) : Option DateTime :=
  match s.toList with
  | [a, b, c, d] =>
    match num4 a b c d with
    | some y => mkDT y 1 1 0
    | none => none
  | _ => none

/-- `datetime.strptime(s, "%Y%m")`: four digits of year then two of month,
expanded to the first of that month (inputChecks.py line 59). -/
def strptimeYM (s : String) : Option DateTime :=
  match s.toList with
  | [a, b, c, d, e, f] =>
    match num4 a b c d, num2 e f with
    | some y, some m => mkDT y m 1 0
    | _, _ => none
  | _ => none

/-- Modelled from the spec: `gdelt/helpers.py` (`_testdate`) is not under
`src/`.  Section 4.4 requires every bucket to be dated; the bucket strings
built by the resolver are `YYYYMMDD` day strings or `YYYYMMDDHHMMSS`
15-minute timestamps, and `_testdate` turns one into its datetime. -/
def testdate (s : String) : Option DateTime :=
  match s.toList with
  | [y1, y2, y3, y4, m1, m2, d1, d2] =>
    match num4 y1 y2 y3 y4, num2 m1 m2, num2 d1 d2 with
    | some y, some m, some d => mkDT y m d 0
    | _, _, _ => none
  | [y1, y2, y3, y4, m1, m2, d1, d2, h1, h2, n1, n2, s1, s2] =>
    match num4 y1 y2 y3 y4, num2 m1 m2, num2 d1 d2,
        num2 h1 h2, num2 n1 n2, num2 s1 s2 with
    | some y, some m, some d, some hh, some nn, some ss =>
      if hh < 24 && nn < 60 && ss < 60 then mkDT y m d (hh * 60 + nn)
      else none
    | _, _, _, _, _, _ => none
  | _ => none

/-- Parse every element of a list with `f`, failing on the first failure
(the Python loops raise on the first unparseable element). -/
def parseWith (f : String → Option DateTime) : List String → Option (List DateTime)
  | [] => some []
  | s :: rest =>
    match f s, parseWith f rest with
    | some d, some ds => some (d :: ds)
    | _, _ => none

theorem parseWith_length (f : String → Option DateTime) :
    ∀ ds xs, parseWith f ds = some xs → xs.length = ds.length := by
  intro ds
  induction ds with
  | nil =>
    intro xs h
    unfold parseWith at h
    cases h
    rfl
  | cons s rest ih =>
    intro xs h
    unfold parseWith at h
    cases hf : f s with
    | none => rw [hf] at h; exact absurd h (by simp)
    | some d =>
      rw [hf] at h
      cases hr : parseWith f rest with
      | none => rw [hr] at h; exact absurd h (by simp)
      | some ds =>
        rw [hr] at h
        cases h
        simp [ih ds hr]

/-! ## Error model -/

/-- The `ValueError` family raised by the pipeline, tagged by raise site:
future date, unparseable date string, date before the minimum supported
date, start not strictly before end, unrecognised table selector, and the
empty-result error of the merge stage. -/
inductive GErr where
  | futureDate
  | unparsedDate
  | minDate
  | startNotBeforeEnd
  | invalidTable
  | emptyResult
deriving DecidableEq, Repr

/-! ## inputChecks.py: date input validation -/

/-- `parse("Feb 18 2015")`, the minimum supported date (inputChecks.py
lines 67 and 163). -/
def cutoffMin : DateTime := ⟨⟨2015, 2, 18⟩, 0⟩

/-- A `date` argument: a single string or a list of strings (a numpy array
behaves as the list case). -/
inductive DateSpec where
  | str (s : String)
  | list (ds : List String)

/-- Lines 54-66 of inputChecks.py: one step of the normalisation loop.  A
4-character element goes through `strptime` with the year format and a
6-character one through the year-month format (failures raise); anything
else goes through the generic parse whose bare except keeps the element
verbatim on failure. -/
def normalizeElem (l : String) : Except GErr String :=
  if l.length == 4 then
    match strptimeY l with
    | some d => .ok (canonicalStr d)
    | none => .error .unparsedDate
  else if l.length == 6 then
    match strptimeYM l with
    | some d => .ok (canonicalStr d)
    | none => .error .unparsedDate
  else
    match parseDate l with
    | some d => .ok (canonicalStr d)
    | none => .ok l

/-- Lines 52-72 of inputChecks.py: build `newdate` element by element;
after each element, line 67 re-parses the normalised text (raising if it
does not parse) and rejects dates strictly before the minimum supported
date. -/
def checkLoop : List String → Except GErr (List String)
  | [] => .ok []
  | l :: rest =>
    match normalizeElem l with
    | .error e => .error e
    | .ok test =>
      match parseDate test with
      | none => .error .unparsedDate
      | some d =>
        if dtLtB d cutoffMin then .error .minDate
        else
          match checkLoop rest with
          | .error e => .error e
          | .ok r => .ok (test :: r)

/-- Lines 40-48 of inputChecks.py: the single-string branch.  The empty
string skips the check entirely; otherwise an unparseable string raises
(inside dateutil) and a parsed date after the current time raises the
future-date error. -/
def dateInputCheckStr (now : DateTime) (s : String) : Except GErr Unit :=
  if s == "" then .ok ()
  else
    match parseDate s with
    | none => .error .unparsedDate
    | some d => if dtLtB now d then .error .futureDate else .ok ()

/-- Lines 51-168 of inputChecks.py: the list branch.  After the
normalisation loop, a 1-element list is checked for a future date inside a
try statement whose bare except turns even that raise into the
does-not-parse error; a 2-element list is checked for parseability, start
strictly before end, then future dates; a longer list is checked for
future dates and then for dates not strictly after the minimum supported
date (strict, unlike line 67).  The body has no return statement, so the
success payload is always `none`. -/
def dateInputCheckList (now : DateTime) (dates : List String) :
    Except GErr (Option (List String)) :=
  match checkLoop dates with
  | .error e => .error e
  | .ok newdate =>
    match newdate with
    | [] => .ok none
    | [d] =>
      match parseDate (String.join [d]) with
      | none => .error .unparsedDate
      | some x => if dtLtB now x then .error .unparsedDate else .ok none
    | [a, b] =>
      match parseDate a, parseDate b with
      | some d0, some d1 =>
        if !(dtLtB d0 d1) then .error .startNotBeforeEnd
        else if dtLtB now d0 || dtLtB now d1 then .error .futureDate
        else .ok none
      | _, _ => .error .unparsedDate
    | ds =>
      match parseWith parseDate ds with
      | none => .error .unparsedDate
      | some xs =>
        if xs.any (fun d => dtLtB now d) then .error .futureDate
        else if xs.any (fun d => !(dtLtB cutoffMin d)) then .error .minDate
        else .ok none

/-- `_date_input_check` (inputChecks.py lines 22-168), dispatching on the
runtime type of the `date` argument. -/
def dateInputCheck (now : DateTime) : DateSpec → Except GErr (Option (List String))
  | .str s =>
    match dateInputCheckStr now s with
    | .error e => .error e
    | .ok _ => .ok none
  | .list ds => dateInputCheckList now ds

/-- A fixed sample current time (2016-10-19 12:00) used to instantiate the
`datetime.datetime.now()` parameter in concrete evaluations. -/
def nowSample : DateTime := ⟨⟨2016, 10, 19⟩, 720⟩

/-! ## vectorizingFuncs.py: resource locator construction -/

/-- The fixed base address (vectorizingFuncs.py line 44). -/
def urlBase : String := "http://data.gdeltproject.org/gdeltv2/"

/-- Lines 46-64 of vectorizingFuncs.py: the table and translation dispatch
choosing the filename suffix, raising for an unrecognised table type. -/
def cabooseOf (table : String) (translation : Bool) : Except GErr String :=
  if table == "events" then
    .ok (if !translation then ".export.CSV.zip"
         else ".translation.export.CSV.zip")
  else if table == "mentions" then
    .ok (if !translation then ".mentions.CSV.zip"
         else ".translation.mentions.CSV.zip")
  else if table == "gkg" then
    .ok (if !translation then ".gkg.csv.zip"
         else ".translation.gkg.csv.zip")
  else .error .invalidTable

/-- `parse("2013 04 01")`: the cutover date of the early feed format
(vectorizingFuncs.py lines 87, 93 and 107). -/
def cutoverDate : Date := ⟨2013, 4, 1⟩

/-- The cutover as a datetime (midnight), as compared on line 87. -/
def cutoverDT : DateTime := ⟨cutoverDate, 0⟩

/-- Lines 67-99 of vectorizingFuncs.py: the list path of `_urlBuilder`.
The normalisation loop of lines 70-83 re-parses every bucket but its
result (`newdate`) is never used for the output, so only its parse
failures matter, and on the digit-only bucket strings they coincide with
the `_testdate` calls of the branch condition; the embedding therefore
parses each bucket once.  When every bucket is strictly after the cutover
datetime, the table suffix is appended to every bucket; otherwise each
bucket is dated individually and receives the generic ".zip" suffix
exactly when its calendar date is strictly before the cutover date. -/
def urlBuilderList (dates : List String) (table : String) (translation : Bool) :
    Except GErr (List String) :=
  match cabooseOf table translation with
  | .error e => .error e
  | .ok cab =>
    match parseWith testdate dates with
    | none => .error .unparsedDate
    | some parsed =>
      if parsed.all (fun x => dtLtB cutoverDT x) then
        .ok (dates.map (fun s => urlBase ++ s ++ cab))
      else
        .ok ((dates.zip parsed).map (fun p =>
          if dateLtB p.2.date cutoverDate then urlBase ++ p.1 ++ ".zip"
          else urlBase ++ p.1 ++ cab))

/-- Lines 101-110 of vectorizingFuncs.py: the string path of `_urlBuilder`,
producing the single locator base-address ++ day string ++ suffix.  (The
nested 1-element-list sub-branch, marked no-cover in the source, is not
reachable on the string path.) -/
def urlBuilderStr (dateString : String) (table : String) (translation : Bool) :
    Except GErr String :=
  match cabooseOf table translation with
  | .error e => .error e
  | .ok cab => .ok (urlBase ++ dateString ++ cab)

/-! ## base.py: the Search method -/

/-- Line 292 of base.py: the accepted table selectors.  Note the two legacy
selectors beyond events, mentions and gkg. -/
def validTables : List String := ["events", "gkg", "vgkg", "iatv", "mentions"]

/-- Lines 291-298 of base.py: Search checks the table name first and only
then runs the date validation — the prefix of Search that can raise before
any locator is built. -/
def searchValidate (table : String) (now : DateTime) (date : DateSpec) :
    Except GErr Unit :=
  if !(validTables.contains table) then .error .invalidTable
  else
    match dateInputCheck now date with
    | .error e => .error e
    | .ok _ => .ok ()

/-- The merged query result as seen by the post-merge check: `none` models
a Python `None` result; otherwise the column count and row count of the
concatenated dataframe. -/
structure Frame where
  ncols : Nat
  nrows : Nat
deriving DecidableEq, Repr

/-- Lines 448-460 of base.py: the post-merge column fix and empty check.
`if results is not None:` applies the declared schema, dropping the last
name exactly when the frame has 57 columns; the `elif results is None or
len(results) == 0:` branch is reachable only when `results` is `None`, so
its zero-length test is dead and a zero-row dataframe never raises.
Returns the column names assigned to the result. -/
def checkEmptySetColumns (results : Option Frame) (columns : List String) :
    Except GErr (List String) :=
  match results with
  | some r => if r.ncols == 57 then .ok columns.dropLast else .ok columns
  | none => .error .emptyResult

/-- The declared events schema (the `events2.csv` names).  The schema files
and `getHeaders.py` are not under `src/`; this list is the one printed by
the `gdelt.Search` docstring in `src/gdelt/base.py` lines 127-145. -/
def eventsColumns : List String :=
  ["GLOBALEVENTID", "SQLDATE", "MonthYear", "Year", "FractionDate",
   "Actor1Code", "Actor1Name", "Actor1CountryCode", "Actor1KnownGroupCode",
   "Actor1EthnicCode", "Actor1Religion1Code", "Actor1Religion2Code",
   "Actor1Type1Code", "Actor1Type2Code", "Actor1Type3Code", "Actor2Code",
   "Actor2Name", "Actor2CountryCode", "Actor2KnownGroupCode",
   "Actor2EthnicCode", "Actor2Religion1Code", "Actor2Religion2Code",
   "Actor2Type1Code", "Actor2Type2Code", "Actor2Type3Code", "IsRootEvent",
   "EventCode", "EventBaseCode", "EventRootCode", "QuadClass",
   "GoldsteinScale", "NumMentions", "NumSources", "NumArticles", "AvgTone",
   "Actor1Geo_Type", "Actor1Geo_FullName", "Actor1Geo_CountryCode",
   "Actor1Geo_ADM1Code", "Actor1Geo_ADM2Code", "Actor1Geo_Lat",
   "Actor1Geo_Long", "Actor1Geo_FeatureID", "Actor2Geo_Type",
   "Actor2Geo_FullName", "Actor2Geo_CountryCode", "Actor2Geo_ADM1Code",
   "Actor2Geo_ADM2Code", "Actor2Geo_Lat", "Actor2Geo_Long",
   "Actor2Geo_FeatureID", "ActionGeo_Type", "ActionGeo_FullName",
   "ActionGeo_CountryCode", "ActionGeo_ADM1Code", "ActionGeo_ADM2Code",
   "ActionGeo_Lat", "ActionGeo_Long", "ActionGeo_FeatureID", "DATEADDED",
   "SOURCEURL"]

/-! ## dateFuncs.py (not under src/): range resolution and coverage -/

/-- Modelled from the spec: `gdelt/dateFuncs.py` (`_dateRanger`) is not
under `src/`.  Section 4.2: a 2-element input is always a closed range,
expanded to every calendar day between the endpoints inclusive; a list of
3 or more dates is kept verbatim as discrete days; a single date resolves
to that day alone. -/
def dateRanger (dates : List String) : Option (List Date) :=
  match dates with
  | [a, b] =>
    match parseDate a, parseDate b with
    | some da, some db => some (rangeDays da.date db.date)
    | _, _ => none
  | ds =>
    match parseWith parseDate ds with
    | some xs => some (xs.map DateTime.date)
    | none => none

/-- Modelled from the spec: `gdelt/dateFuncs.py` (`_gdeltRangeString`) is
not under `src/`.  Section 4.3: with coverage on, each day expands to the
96 15-minute boundaries 00:00 through 23:45; the current day is truncated
at the latest boundary not exceeding the current time, rounded down to the
most recently completed 15-minute mark. -/
def coverageExpand (now : DateTime) (day : Date) : List DateTime :=
  if day == now.date then
    (List.range (now.minute / 15 + 1)).map (fun i => ⟨day, 15 * i⟩)
  else
    (List.range 96).map (fun i => ⟨day, 15 * i⟩)

/-! ## Helper lemmas -/

theorem after_cutover_not_before (x : DateTime)
    (h : dtLtB cutoverDT x = true) : dateLtB x.date cutoverDate = false := by
  have hc : cutoverDT.date = cutoverDate := rfl
  have hm : cutoverDT.minute = 0 := rfl
  unfold dtLtB at h
  rw [hc, hm] at h
  unfold dateLtB
  simp only [Bool.or_eq_true, Bool.and_eq_true, decide_eq_true_eq,
    beq_iff_eq] at h
  simp only [decide_eq_false_iff_not]
  omega

theorem zip_map_caboose (cab : String) :
    ∀ (ds : List String) (ps : List DateTime),
      ds.length = ps.length →
      (∀ x ∈ ps, dateLtB x.date cutoverDate = false) →
      (ds.zip ps).map (fun p =>
          if dateLtB p.2.date cutoverDate then urlBase ++ p.1 ++ ".zip"
          else urlBase ++ p.1 ++ cab)
        = ds.map (fun s => urlBase ++ s ++ cab) := by
  intro ds
  induction ds with
  | nil =>
    intro ps _ _
    rfl
  | cons s rest ih =>
    intro ps hlen hp
    cases ps with
    | nil => simp at hlen
    | cons x prest =>
      simp only [List.zip_cons_cons, List.map_cons]
      rw [hp x (by simp)]
      simp only [Bool.false_eq_true, if_false]
      rw [ih prest (by simpa using hlen) (fun y hy => hp y (by simp [hy]))]

/-! ## Claim theorems -/

/-- Claim C10: the empty string input passes `_date_input_check` without
raising: the inner guard `if date != ""` skips the future-date check (and
there is no parseability or minimum-date check on the string path), for
every current time. -/
theorem c10_empty_string_accepted :
    ∀ now : DateTime, dateInputCheck now (DateSpec.str "") = .ok none := by
  intro now
  rfl

/-- Claim C1 (code bug): a merged result that is an empty dataframe (zero
rows, not None) does not raise the empty-result error — the zero-length
test sits in an `elif` that is unreachable when `results` is not None —
so the schema is applied and the empty table is returned silently; only a
`None` result reaches the raise. -/
theorem c1_zero_rows_not_raised :
    checkEmptySetColumns (some ⟨61, 0⟩) eventsColumns = .ok eventsColumns
      ∧ checkEmptySetColumns none eventsColumns = .error .emptyResult :=
  ⟨rfl, rfl⟩

/-- Claim C7 (counterexample): the declared events schema has 61 names, so
a 57-column table is not the one-fewer-than-declared case (which would be
60), yet the code drops the last declared name for it instead of applying
the full schema unchanged. -/
theorem c7_counterexample :
    checkEmptySetColumns (some ⟨57, 10⟩) eventsColumns
        = .ok eventsColumns.dropLast
      ∧ eventsColumns.length = 61
      ∧ 57 ≠ eventsColumns.length - 1
      ∧ eventsColumns.dropLast ≠ eventsColumns := by
  refine ⟨rfl, rfl, by decide, ?_⟩
  intro h
  have hl := congrArg List.length h
  rw [List.length_dropLast] at hl
  have h61 : eventsColumns.length = 61 := rfl
  omega

/-- Claim C7 (amended): the post-merge fix drops the last declared column
name exactly when the concatenated table has 57 columns — a hard-coded
count, not the declared count minus one for the query's table type — and
in every other non-None case the full declared schema is applied
unchanged; the drop removes only the trailing name, preserving the
leading columns. -/
theorem c7_amended_hardcoded_57 :
    ∀ (r : Frame) (cols : List String),
      checkEmptySetColumns (some r) cols
          = .ok (if r.ncols = 57 then cols.dropLast else cols)
        ∧ cols.dropLast = cols.take (cols.length - 1) := by
  intro r cols
  constructor
  · unfold checkEmptySetColumns
    by_cases h : r.ncols = 57
    · simp [h]
    · simp [h]
  · exact List.dropLast_eq_take cols

/-- Claim C8 (counterexample): "vgkg" is not one of events, mentions, gkg,
yet the early table check of Search accepts it (and with a valid date the
whole validation prefix raises nothing), because the accepted list also
carries the legacy selectors vgkg and iatv. -/
theorem c8_counterexample :
    searchValidate "vgkg" nowSample (DateSpec.str "2016-10-01") = .ok ()
      ∧ "vgkg" ∉ (["events", "mentions", "gkg"] : List String) :=
  ⟨rfl, by decide⟩

/-- Claim C8 (amended): Search raises the invalid-table error before date
validation runs, exactly when the table argument is outside the five
accepted selectors events, gkg, vgkg, iatv, mentions — the two legacy
selectors pass the early check. -/
theorem c8_amended_valid_list :
    ∀ (t : String) (now : DateTime) (d : DateSpec),
      (validTables.contains t = false →
        searchValidate t now d = .error .invalidTable)
      ∧ (validTables.contains t = true →
          searchValidate t now d
            = match dateInputCheck now d with
              | .error e => .error e
              | .ok _ => .ok ()) := by
  intro t now d
  constructor
  · intro h
    unfold searchValidate
    rw [h]
    rfl
  · intro h
    unfold searchValidate
    rw [h]
    rfl

/-- Claim C8 witness: a selector outside the accepted list is rejected by
the early check whatever the date argument is. -/
theorem c8_amended_witness :
    searchValidate "foo" nowSample (DateSpec.str "2015-01-01")
      = .error .invalidTable :=
  (c8_amended_valid_list "foo" nowSample (DateSpec.str "2015-01-01")).1 rfl

/-- Claim C6: on the single-day string path `_urlBuilder` returns exactly
one locator, the fixed base address then the day string then the suffix
fixed by the table and translation pair; the six suffixes are the
documented ones and are pairwise distinct. -/
theorem c6_single_day_locator :
    (∀ (s t : String) (tr : Bool) (cab : String),
        cabooseOf t tr = .ok cab →
        urlBuilderStr s t tr = .ok (urlBase ++ s ++ cab))
      ∧ cabooseOf "events" false = .ok ".export.CSV.zip"
      ∧ cabooseOf "events" true = .ok ".translation.export.CSV.zip"
      ∧ cabooseOf "mentions" false = .ok ".mentions.CSV.zip"
      ∧ cabooseOf "mentions" true = .ok ".translation.mentions.CSV.zip"
      ∧ cabooseOf "gkg" false = .ok ".gkg.csv.zip"
      ∧ cabooseOf "gkg" true = .ok ".translation.gkg.csv.zip"
      ∧ ([".export.CSV.zip", ".translation.export.CSV.zip",
          ".mentions.CSV.zip", ".translation.mentions.CSV.zip",
          ".gkg.csv.zip", ".translation.gkg.csv.zip"] : List String).Nodup := by
  refine ⟨?_, rfl, rfl, rfl, rfl, rfl, rfl, by decide⟩
  intro s t tr cab h
  unfold urlBuilderStr
  rw [h]

/-- Claim C6 witness: the concrete single-day events locator. -/
theorem c6_witness :
    urlBuilderStr "20161019" "events" false
      = .ok (urlBase ++ "20161019" ++ ".export.CSV.zip") :=
  c6_single_day_locator.1 "20161019" "events" false ".export.CSV.zip" rfl

/-- Claim C5: on the list path of `_urlBuilder` the output has one locator
per bucket, and the i-th locator carries the generic ".zip" suffix exactly
when the i-th bucket's date is strictly before the 2013-04-01 cutover and
the table/translation suffix otherwise — so a list spanning the cutover
mixes both suffix styles within the one returned list. -/
theorem c5_per_bucket_cutover :
    ∀ (dates : List String) (t : String) (tr : Bool) (cab : String)
      (parsed : List DateTime),
      cabooseOf t tr = .ok cab →
      parseWith testdate dates = some parsed →
      urlBuilderList dates t tr
          = .ok ((dates.zip parsed).map (fun p =>
              if dateLtB p.2.date cutoverDate then urlBase ++ p.1 ++ ".zip"
              else urlBase ++ p.1 ++ cab))
        ∧ parsed.length = dates.length := by
  intro dates t tr cab parsed hcab hp
  have hlen := parseWith_length testdate dates parsed hp
  refine ⟨?_, hlen⟩
  unfold urlBuilderList
  simp only [hcab, hp]
  by_cases hall : parsed.all (fun x => dtLtB cutoverDT x) = true
  · rw [if_pos hall]
    have hforall : ∀ x ∈ parsed, dateLtB x.date cutoverDate = false := by
      intro x hx
      apply after_cutover_not_before
      exact List.all_eq_true.mp hall x hx
    rw [zip_map_caboose cab dates parsed hlen.symm hforall]
  · rw [if_neg hall]

/-- Claim C5 witness: a two-bucket list spanning the cutover yields the
generic suffix for the early bucket and the events suffix for the late
one. -/
theorem c5_witness :
    urlBuilderList ["20130331000000", "20130402000000"] "events" false
      = .ok [urlBase ++ "20130331000000" ++ ".zip",
             urlBase ++ "20130402000000" ++ ".export.CSV.zip"] := by
  have h := c5_per_bucket_cutover ["20130331000000", "20130402000000"]
    "events" false ".export.CSV.zip"
    [⟨⟨2013, 3, 31⟩, 0⟩, ⟨⟨2013, 4, 2⟩, 0⟩] rfl rfl
  rw [h.1]
  rfl

/-- Claim C4 (spec-modelled): a 2-element date input with start strictly
before end resolves to one bucket per calendar day of the closed interval,
in ascending day order, with length the day count of the span; a list of
3 or more dates is kept verbatim as discrete days. -/
theorem c4_two_element_range :
    (∀ (sa sb : String) (da db : DateTime),
        parseDate sa = some da → parseDate sb = some db →
        da.date.isOk = true → da.date.rd < db.date.rd →
        dateRanger [sa, sb] = some (rangeDays da.date db.date)
          ∧ (rangeDays da.date db.date).length = db.date.rd - da.date.rd + 1
          ∧ (rangeDays da.date db.date).map Date.rd
              = List.range' da.date.rd (db.date.rd - da.date.rd + 1)
          ∧ ∀ x ∈ rangeDays da.date db.date, x.isOk = true)
      ∧ (∀ (s1 s2 s3 : String) (rest : List String) (xs : List DateTime),
          parseWith parseDate (s1 :: s2 :: s3 :: rest) = some xs →
          dateRanger (s1 :: s2 :: s3 :: rest) = some (xs.map DateTime.date)) := by
  constructor
  · intro sa sb da db ha hb hok hlt
    refine ⟨?_, rangeDays_length _ _, rangeDays_map_rd _ _ hok,
      rangeDays_isOk _ _ hok⟩
    unfold dateRanger
    simp only [ha, hb]
  · intro s1 s2 s3 rest xs h
    have hred : dateRanger (s1 :: s2 :: s3 :: rest)
        = match parseWith parseDate (s1 :: s2 :: s3 :: rest) with
          | some ys => some (ys.map DateTime.date)
          | none => none := rfl
    rw [hred, h]

/-- Claim C4 witness: ["2016-01-01", "2016-01-03"] resolves to the three
days 2016-01-01, 2016-01-02 and 2016-01-03. -/
theorem c4_witness :
    dateRanger ["2016-01-01", "2016-01-03"]
        = some (rangeDays ⟨2016, 1, 1⟩ ⟨2016, 1, 3⟩)
      ∧ rangeDays ⟨2016, 1, 1⟩ ⟨2016, 1, 3⟩
        = [⟨2016, 1, 1⟩, ⟨2016, 1, 2⟩, ⟨2016, 1, 3⟩] := by
  constructor
  · exact (c4_two_element_range.1 "2016-01-01" "2016-01-03"
      ⟨⟨2016, 1, 1⟩, 0⟩ ⟨⟨2016, 1, 3⟩, 0⟩ rfl rfl (by decide) (by decide)).1
  · decide

/-- Claim C9 (spec-modelled): with coverage on, a historical day emits
exactly the 96 15-minute boundaries 00:00 through 23:45 in ascending
order, and the current calendar day emits only 15-minute boundaries of
that day, none exceeding the most recently completed 15-minute boundary
of the current time. -/
theorem c9_coverage_boundaries :
    ∀ (now : DateTime) (day : Date),
      (day ≠ now.date →
        coverageExpand now day
          = (List.range 96).map (fun i => ⟨day, 15 * i⟩))
      ∧ (day = now.date →
          ∀ t ∈ coverageExpand now day,
            t.date = day ∧ t.minute % 15 = 0
              ∧ t.minute ≤ 15 * (now.minute / 15)) := by
  intro now day
  constructor
  · intro h
    unfold coverageExpand
    rw [if_neg (by simpa using h)]
  · intro h t ht
    unfold coverageExpand at ht
    rw [if_pos (by simpa using h)] at ht
    obtain ⟨i, hi, hit⟩ := List.mem_map.mp ht
    rw [List.mem_range] at hi
    rw [← hit]
    refine ⟨rfl, ?_, ?_⟩
    · show (15 * i) % 15 = 0
      omega
    · show 15 * i ≤ 15 * (now.minute / 15)
      omega

/-- Claim C9 witness: a historical day under the sample clock expands to
the full 96-boundary sequence. -/
theorem c9_witness :
    coverageExpand nowSample ⟨2016, 10, 18⟩
      = (List.range 96).map (fun i => ⟨⟨2016, 10, 18⟩, 15 * i⟩) :=
  (c9_coverage_boundaries nowSample ⟨2016, 10, 18⟩).1 (by decide)

/-- Claim C2 (counterexample): on a successfully validated list the
function returns None, not the normalised list: the normalised form of
["2016-01-01"] is ["2016-01-01 00:00:00"], yet the call yields `none`. -/
theorem c2_counterexample :
    dateInputCheck nowSample (DateSpec.list ["2016-01-01"]) = .ok none
      ∧ checkLoop ["2016-01-01"] = .ok ["2016-01-01 00:00:00"]
      ∧ (Except.ok (some ["2016-01-01 00:00:00"])
          : Except GErr (Option (List String))) ≠ .ok none :=
  ⟨rfl, rfl, by simp⟩

/-- Claim C2 (amended): `_date_input_check` computes the normalised list
internally — each element expanded from year-only or year-month form, or
parsed generically, to the canonical string — but on success it always
returns None (there is no return statement), never the list. -/
theorem c2_amended_returns_none :
    (∀ (now : DateTime) (ds : List String) (r : Option (List String)),
        dateInputCheckList now ds = .ok r → r = none)
      ∧ (∀ (ds ns : List String), checkLoop ds = .ok ns →
          List.Forall₂ (fun l t => normalizeElem l = .ok t) ds ns)
      ∧ normalizeElem "2016" = .ok "2016-01-01 00:00:00"
      ∧ normalizeElem "201603" = .ok "2016-03-01 00:00:00"
      ∧ normalizeElem "2016-10-19" = .ok "2016-10-19 00:00:00" := by
  refine ⟨?_, ?_, rfl, rfl, rfl⟩
  · intro now ds r h
    unfold dateInputCheckList at h
    repeat' split at h
    all_goals simp_all
  · intro ds
    induction ds with
    | nil =>
      intro ns h
      unfold checkLoop at h
      cases h
      exact List.Forall₂.nil
    | cons l rest ih =>
      intro ns h
      unfold checkLoop at h
      cases hn : normalizeElem l with
      | error e =>
        simp only [hn] at h
        exact Except.noConfusion h
      | ok test =>
        simp only [hn] at h
        cases hp : parseDate test with
        | none =>
          simp only [hp] at h
          exact Except.noConfusion h
        | some d =>
          simp only [hp] at h
          by_cases hlt : dtLtB d cutoffMin = true
          · rw [if_pos hlt] at h
            exact absurd h (by simp)
          · rw [if_neg hlt] at h
            cases hr : checkLoop rest with
            | error e =>
              simp only [hr] at h
              exact Except.noConfusion h
            | ok r =>
              simp only [hr] at h
              cases h
              exact List.Forall₂.cons hn (ih r hr)

/-- Claim C2 witness: the year-only element "2016" is normalised to the
canonical expansion of January 1. -/
theorem c2_witness :
    List.Forall₂ (fun l t => normalizeElem l = .ok t)
      ["2016"] ["2016-01-01 00:00:00"] :=
  c2_amended_returns_none.2.1 ["2016"] ["2016-01-01 00:00:00"] rfl

/-- Claim C3 (counterexample): a 3-element list whose dates all parse to
exactly 2015-02-18 is rejected (the greater-than-2 path demands strictly
after the minimum date), so the boundary is not inclusive on every
validation path; and a single string strictly before the minimum date
passes, so an early date does not always fail validation. -/
theorem c3_counterexample :
    dateInputCheck nowSample
        (DateSpec.list ["2015-02-18", "2015-02-18", "2015-02-18"])
      = .error .minDate
      ∧ dateInputCheck nowSample (DateSpec.str "2015-01-01") = .ok none :=
  ⟨rfl, rfl⟩

/-- Claim C3 (amended): for list inputs any element that normalises to a
date strictly before 2015-02-18 fails validation in the per-element loop
(so the boundary is inclusive there, and 1- and 2-element lists of
boundary dates pass), but the path for lists of more than two elements
additionally rejects dates exactly equal to 2015-02-18 (exclusive
boundary), and a single date string is never checked against the minimum
date at all. -/
theorem c3_amended_boundary_paths :
    (∀ (now : DateTime) (l test : String) (d : DateTime)
        (rest : List String),
        normalizeElem l = .ok test → parseDate test = some d →
        dtLtB d cutoffMin = true →
        dateInputCheck now (DateSpec.list (l :: rest)) = .error .minDate)
      ∧ (∀ rest, checkLoop ("2015-02-18" :: rest)
          = match checkLoop rest with
            | .error e => .error e
            | .ok r => .ok ("2015-02-18 00:00:00" :: r))
      ∧ dateInputCheck nowSample (DateSpec.list ["2015-02-18"]) = .ok none
      ∧ dateInputCheck nowSample
          (DateSpec.list ["2015-02-18", "2015-02-19"]) = .ok none
      ∧ dateInputCheck nowSample
          (DateSpec.list ["2015-02-18", "2015-02-18", "2015-02-18"])
        = .error .minDate
      ∧ (∀ (now : DateTime) (s : String) (d : DateTime),
          parseDate s = some d → dtLtB now d = false →
          dateInputCheck now (DateSpec.str s) = .ok none) := by
  refine ⟨?_, ?_, rfl, rfl, rfl, ?_⟩
  · intro now l test d rest hn hp hlt
    have hcl : checkLoop (l :: rest) = .error .minDate := by
      unfold checkLoop
      simp only [hn, hp]
      rw [if_pos hlt]
    show dateInputCheckList now (l :: rest) = .error .minDate
    unfold dateInputCheckList
    rw [hcl]
  · intro rest
    rfl
  · intro now s d hp hlt
    have h1 : dateInputCheckStr now s = .ok () := by
      unfold dateInputCheckStr
      by_cases hse : (s == "") = true
      · rw [if_pos hse]
      · rw [if_neg hse]
        simp only [hp]
        rw [if_neg (by simp [hlt])]
    show (match dateInputCheckStr now s with
          | .error e => .error e
          | .ok _ => .ok none
          : Except GErr (Option (List String))) = .ok none
    rw [h1]

/-- Claim C3 witness: a single parseable, non-future string before the
minimum supported date passes validation. -/
theorem c3_witness :
    dateInputCheck nowSample (DateSpec.str "2014-12-31") = .ok none :=
  c3_amended_boundary_paths.2.2.2.2.2 nowSample "2014-12-31"
    ⟨⟨2014, 12, 31⟩, 0⟩ rfl rfl

end GdeltPyR
